import Mathlib

/-!
Verification development for the Multipipeline DeepStream orchestrator
(src/manager.py and src/manager_v2.py), shallowly embedded in Lean 4.

The embedding models:
- the YAML config materialization performed by generate_config,
- the port allocation / conflict check of spawn_pipeline,
- the pipeline registry (Python dict keyed by pipeline id) and the
  operations spawn, kill, kill-all, health scan and list,
- the observable side-effect traces (signals, waits, file operations)
  of the termination and cleanup paths, for both manager.py (v1) and
  manager_v2.py (v2).

Machine integers do not overflow in the modelled code paths (ports grow by
one past 9000 and Python ints are unbounded), so Nat is used directly.
-/

namespace Orch

/-- Scalar YAML values appearing inside config sections. -/
inductive Scalar where
  | s (v : String)
  | i (v : Int)
  | b (v : Bool)
  | null
  deriving DecidableEq, Repr

/-- A YAML mapping section: association list preserving insertion order,
mirroring a Python dict. -/
abbrev CfgSection := List (String × Scalar)

/-- A parsed top-level YAML document: section name to section. -/
abbrev Doc := List (String × CfgSection)

/-- Membership test for an association list key (Python `k in d`). -/
def hasKey {α : Type} : List (String × α) → String → Bool
  | [], _ => false
  | (k0, _) :: m, k => k0 = k || hasKey m k

/-- Lookup in an association list (Python `d[k]`). -/
def lookupA {α : Type} : List (String × α) → String → Option α
  | [], _ => none
  | (k0, v0) :: m, k => if k0 = k then some v0 else lookupA m k

/-- Replace the value at an existing key, keeping order (Python dict write). -/
def mapSet {α : Type} : List (String × α) → String → α → List (String × α)
  | [], _, _ => []
  | (k0, v0) :: m, k, v => if k0 = k then (k, v) :: mapSet m k v else (k0, v0) :: mapSet m k v

/-- Python dict assignment `d[k] = v`: replace in place when the key exists,
append otherwise. -/
def setA {α : Type} (m : List (String × α)) (k : String) (v : α) : List (String × α) :=
  if hasKey m k then mapSet m k v else m ++ [(k, v)]

/-- The three forced network settings of generate_config, applied in source
order: httpPort, httpIp, enable. -/
def forcedSac (sac : CfgSection) (port : Nat) : CfgSection :=
  setA (setA (setA sac "httpPort" (Scalar.s (toString port)))
      "httpIp" (Scalar.s "0.0.0.0"))
    "enable" (Scalar.i 1)

/-- When the server-app-ctx key is absent, generate_config first installs an
empty block for it (Python: if the key is not in config, assign an empty
dict). -/
def ensureSac (d : Doc) : Doc :=
  if hasKey d "server-app-ctx" then d else d ++ [("server-app-ctx", ([] : CfgSection))]

/-- The primary server block of a document, defaulting to empty. -/
def sacOf (d : Doc) : CfgSection :=
  (lookupA d "server-app-ctx").getD []

/-- The document after the server-app-ctx block has been ensured and its
three network settings forced (the state of `config` in generate_config
just before the rest-server check). -/
def withForcedSac (d : Doc) (port : Nat) : Doc :=
  setA (ensureSac d) "server-app-ctx"
    (forcedSac ((lookupA (ensureSac d) "server-app-ctx").getD []) port)

/-- The pure document transformation performed by generate_config: force the
three network settings of the server-app-ctx block and, when a rest-server
block is present, force its enable flag. -/
def transformConfig (d : Doc) (port : Nat) : Doc :=
  match lookupA (withForcedSac d port) "rest-server" with
  | some rs => setA (withForcedSac d port) "rest-server" (setA rs "enable" (Scalar.i 1))
  | none => withForcedSac d port

/-- TEMP_CONFIG_DIR of manager.py and manager_v2.py. -/
def tempConfigDir : String := "./temp_configs"

/-- LOG_DIR of manager.py and manager_v2.py. -/
def logDir : String := "./logs"

/-- BINARY_PATH of manager.py and manager_v2.py. -/
def binaryPath : String :=
  "/opt/nvidia/deepstream/deepstream/sources/apps/sample_apps/deepstream-server/deepstream-server-app"

/-- os.path.join for the two-component joins used by the managers. -/
def pathJoin (d f : String) : String := d ++ "/" ++ f

/-- The materialized config file name produced by generate_config. -/
def cfgFileName (pid : String) (port : Nat) : String :=
  "pipeline_" ++ pid ++ "_port_" ++ toString port ++ ".yml"

/-- Errors surfaced by generate_config. -/
inductive CfgErr where
  | notFound
  deriving DecidableEq, Repr

/-- A minimal file-system view: path to parsed document. -/
abbrev FS := String → Option Doc

/-- generate_config of manager_v2.py (identical in manager.py): checks that
the template exists, parses it, applies the forced overrides and writes one
new file whose name embeds the generated pipeline id and the port. The
random uuid fragment is supplied as the parameter `pid`. -/
def generateConfig (fs : FS) (tpl : String) (port : Nat) (pid : String) :
    Except CfgErr ((String × String) × FS) :=
  match fs tpl with
  | none => Except.error CfgErr.notFound
  | some d =>
      let p := pathJoin tempConfigDir (cfgFileName pid port)
      Except.ok ((pid, p), fun q => if q = p then some (transformConfig d port) else fs q)

/-! ### Association-list lemmas -/

theorem lookupA_mapSet_same {α : Type} (m : List (String × α)) (k : String) (v : α)
    (h : hasKey m k = true) : lookupA (mapSet m k v) k = some v := by
  induction m with
  | nil => simp [hasKey] at h
  | cons x m ih =>
    obtain ⟨k0, v0⟩ := x
    by_cases hk : k0 = k
    · simp [mapSet, hk, lookupA]
    · simp [hasKey, hk] at h
      simp [mapSet, hk, lookupA, ih h]

theorem lookupA_mapSet_other {α : Type} (m : List (String × α)) (k q : String) (v : α)
    (h : q ≠ k) : lookupA (mapSet m k v) q = lookupA m q := by
  induction m with
  | nil => simp [mapSet]
  | cons x m ih =>
    obtain ⟨k0, v0⟩ := x
    by_cases hk : k0 = k
    · subst hk
      have hkq : ¬ k0 = q := fun hh => h hh.symm
      simp [mapSet, lookupA, hkq, ih]
    · simp [mapSet, hk, lookupA, ih]

theorem lookupA_append_single {α : Type} (m : List (String × α)) (k0 q : String) (v : α) :
    lookupA (m ++ [(k0, v)]) q =
      match lookupA m q with
      | some v0 => some v0
      | none => if k0 = q then some v else none := by
  induction m with
  | nil => simp [lookupA]
  | cons x m ih =>
    obtain ⟨k1, v1⟩ := x
    by_cases hk : k1 = q
    · simp [lookupA, hk]
    · simp [lookupA, hk, ih]

theorem hasKey_isSome {α : Type} (m : List (String × α)) (k : String) :
    hasKey m k = true ↔ (lookupA m k).isSome = true := by
  induction m with
  | nil => simp [hasKey, lookupA]
  | cons x m ih =>
    obtain ⟨k0, v0⟩ := x
    by_cases hk : k0 = k
    · simp [hasKey, lookupA, hk]
    · simp [hasKey, lookupA, hk, ih]

theorem lookupA_setA_same {α : Type} (m : List (String × α)) (k : String) (v : α) :
    lookupA (setA m k v) k = some v := by
  unfold setA
  by_cases h : hasKey m k = true
  · simp [h, lookupA_mapSet_same m k v h]
  · simp at h
    simp [h, lookupA_append_single]
    have hnone : lookupA m k = none := by
      cases hl : lookupA m k with
      | none => rfl
      | some v0 =>
        exact absurd ((hasKey_isSome m k).2 (by simp [hl])) (by simp [h])
    simp [hnone]

theorem lookupA_setA_other {α : Type} (m : List (String × α)) (k q : String) (v : α)
    (h : q ≠ k) : lookupA (setA m k v) q = lookupA m q := by
  unfold setA
  by_cases hk : hasKey m k = true
  · simp [hk, lookupA_mapSet_other m k q v h]
  · simp at hk
    simp [hk, lookupA_append_single]
    cases hl : lookupA m q with
    | some v0 => simp
    | none =>
      simp
      exact fun hh => h hh.symm

/-! ### Registry and process model -/

/-- A registry entry: the value stored in active_pipelines for one id. -/
structure Entry where
  id : String
  port : Nat
  baseConfigPath : String
  tempConfigPath : String
  procId : Nat
  deriving DecidableEq, Repr

/-- The active_pipelines dict, as an ordered association list keyed by id. -/
abbrev Registry := List Entry

def portsOf (r : Registry) : List Nat := r.map Entry.port

def idsOf (r : Registry) : List String := r.map Entry.id

/-- Mode a file handle is opened with. -/
inductive FileMode where
  | write
  | append
  deriving DecidableEq, Repr

/-- Observable side effects of the orchestrator operations. -/
inductive Act where
  | sigTerm (p : Nat)
  | waitGrace (p : Nat) (timeout : Nat)
  | sigKill (p : Nat)
  | waitFull (p : Nat)
  | closeLog (i : String)
  | removeCfg (path : String)
  | removeEntry (i : String)
  | writeFile (path : String)
  | openLog (path : String) (mode : FileMode) (buffering : Nat)
  | popen (bin : String) (arg : String) (stdoutPath : String) (stderrToStdout : Bool)
  deriving DecidableEq, Repr

/-- Result of POST /pipelines/spawn. -/
inductive SpawnRes where
  | badRequest
  | created (i : String) (port : Nat)
  | conflict (port : Nat)
  | serverError
  deriving DecidableEq, Repr

/-- Result of DELETE /pipelines/:id. -/
inductive KillRes where
  | ok
  | notFound
  deriving DecidableEq, Repr

/-- Python falsiness of the requested port: absent or 0 selects allocation. -/
def truthyPort : Option Nat → Option Nat
  | none => none
  | some 0 => none
  | some (p + 1) => some (p + 1)

/-- The port-search loop of spawn_pipeline, with explicit fuel. -/
def scanPort (used : List Nat) (p : Nat) : Nat → Nat
  | 0 => p
  | fuel + 1 => if p ∈ used then scanPort used (p + 1) fuel else p

/-- Automatic port allocation: start at 9000 and step past every used port.
Fuel one larger than the used list suffices (pigeonhole, proved below). -/
def allocatePort (used : List Nat) : Nat :=
  scanPort used 9000 (used.length + 1)

/-- Dict lookup active_pipelines[i]. -/
def lookupReg : Registry → String → Option Entry
  | [], _ => none
  | e :: r, i => if e.id = i then some e else lookupReg r i

/-- Dict deletion del active_pipelines[i]. -/
def removeId (i : String) : Registry → Registry
  | [] => []
  | e :: r => if e.id = i then removeId i r else e :: removeId i r

def hasId : Registry → String → Bool
  | [], _ => false
  | e :: r, i => e.id = i || hasId r i

def replaceId : Registry → Entry → Registry
  | [], _ => []
  | x :: r, e => if x.id = e.id then e :: replaceId r e else x :: replaceId r e

/-- Dict assignment active_pipelines[id] = info: replace when the key exists,
append otherwise. -/
def dictInsert (r : Registry) (e : Entry) : Registry :=
  if hasId r e.id then replaceId r e else r ++ [e]

/-- The registry after check_pipeline_health removes entries whose process
has exited (`dead` is the poll oracle, by process id). -/
def scanStep (dead : Nat → Bool) : Registry → Registry
  | [] => []
  | e :: r => if dead e.procId then scanStep dead r else e :: scanStep dead r

/-- The dead entries collected by the health-check loop, in order. -/
def deadOnes (dead : Nat → Bool) : Registry → Registry
  | [] => []
  | e :: r => if dead e.procId then e :: deadOnes dead r else deadOnes dead r

/-- cleanup_dead_pipeline: close the log handle, then remove the temp config
when it still exists on disk (`cfgEx`). -/
def cleanupTrace (e : Entry) (cfgEx : Bool) : List Act :=
  Act.closeLog e.id :: (if cfgEx then [Act.removeCfg e.tempConfigPath] else [])

/-- Two-phase termination of manager_v2.py: terminate, bounded wait, and on
timeout kill followed by an unconditional wait. Skipped entirely when poll
shows the process already exited. -/
def termTrace (p : Nat) (exited graceOk : Bool) : List Act :=
  if exited then []
  else Act.sigTerm p :: Act.waitGrace p 5 ::
    (if graceOk then [] else [Act.sigKill p, Act.waitFull p])

/-- Termination in manager.py kill_pipeline: on timeout it kills but does not
wait afterwards. -/
def termTraceV1 (p : Nat) (exited graceOk : Bool) : List Act :=
  if exited then []
  else Act.sigTerm p :: Act.waitGrace p 5 ::
    (if graceOk then [] else [Act.sigKill p])

/-- Cleanup actions of the health-check loop, per dead entry in order. -/
def flatCleanup (cfgEx : String → Bool) : Registry → List Act
  | [] => []
  | e :: r => cleanupTrace e (cfgEx e.tempConfigPath) ++ flatCleanup cfgEx r

/-- Registry removals, one per entry in order. -/
def removeActs : Registry → List Act
  | [] => []
  | e :: r => Act.removeEntry e.id :: removeActs r

/-- check_pipeline_health of manager_v2.py: clean up each exited pipeline
(log close, config removal) during the loop, then delete them from the dict. -/
def scanV2 (r : Registry) (dead : Nat → Bool) (cfgEx : String → Bool) :
    Registry × List Act :=
  (scanStep dead r,
   flatCleanup cfgEx (deadOnes dead r) ++ removeActs (deadOnes dead r))

/-- External circumstances of one spawn call: the poll oracle for the
pre-spawn health check, the on-disk state consulted by its cleanup, whether
generate_config succeeds, whether Popen succeeds, the generated uuid
fragment and the operating-system pid of the new child. -/
structure SpawnEnv where
  dead : Nat → Bool
  cfgEx : String → Bool
  genOk : Bool
  launchOk : Bool
  newId : String
  procId : Nat

/-- The body of the try block of spawn_pipeline: materialize the config,
open the log file with mode "w" and line buffering, launch the process with
stdout redirected to the log and stderr merged into stdout, and insert the
new entry. Any raised error is answered with a 500 and no insertion. -/
def spawnLaunch (r : Registry) (cfg : String) (p : Nat) (env : SpawnEnv)
    (pre : List Act) : SpawnRes × Registry × List Act :=
  if env.genOk then
    let tmp := pathJoin tempConfigDir (cfgFileName env.newId p)
    let lp := pathJoin logDir (env.newId ++ ".log")
    if env.launchOk then
      (SpawnRes.created env.newId p,
       dictInsert r
         { id := env.newId, port := p, baseConfigPath := cfg,
           tempConfigPath := tmp, procId := env.procId },
       pre ++ [Act.writeFile tmp, Act.openLog lp FileMode.write 1,
               Act.popen binaryPath tmp lp true])
    else
      (SpawnRes.serverError, r,
       pre ++ [Act.writeFile tmp, Act.openLog lp FileMode.write 1])
  else (SpawnRes.serverError, r, pre)

/-- spawn_pipeline of manager_v2.py: 400 on missing config_path, then a
health check, then port allocation or conflict rejection, then the launch. -/
def spawnV2 (r : Registry) (cfg : String) (req : Option Nat) (env : SpawnEnv) :
    SpawnRes × Registry × List Act :=
  if cfg = "" then (SpawnRes.badRequest, r, [])
  else
    let rs := scanStep env.dead r
    let st := (scanV2 r env.dead env.cfgEx).2
    match truthyPort req with
    | none => spawnLaunch rs cfg (allocatePort (portsOf rs)) env st
    | some p =>
      if p ∈ portsOf rs then (SpawnRes.conflict p, rs, st)
      else spawnLaunch rs cfg p env st

/-- spawn_pipeline of manager.py: identical except that no health check
precedes the allocation. -/
def spawnV1 (r : Registry) (cfg : String) (req : Option Nat) (env : SpawnEnv) :
    SpawnRes × Registry × List Act :=
  if cfg = "" then (SpawnRes.badRequest, r, [])
  else
    match truthyPort req with
    | none => spawnLaunch r cfg (allocatePort (portsOf r)) env []
    | some p =>
      if p ∈ portsOf r then (SpawnRes.conflict p, r, [])
      else spawnLaunch r cfg p env []

/-- kill_pipeline of manager_v2.py: 404 when the id is unknown, otherwise
two-phase termination, cleanup_dead_pipeline, and dict deletion. -/
def killV2 (r : Registry) (i : String) (exited graceOk cfgEx : Bool) :
    KillRes × Registry × List Act :=
  match lookupReg r i with
  | none => (KillRes.notFound, r, [])
  | some e =>
      (KillRes.ok, removeId i r,
       termTrace e.procId exited graceOk ++ cleanupTrace e cfgEx ++ [Act.removeEntry i])

/-- kill_pipeline of manager.py: same shape, but the forced kill is not
followed by a wait, and the log close and config removal are inlined. -/
def killV1 (r : Registry) (i : String) (exited graceOk cfgEx : Bool) :
    KillRes × Registry × List Act :=
  match lookupReg r i with
  | none => (KillRes.notFound, r, [])
  | some e =>
      (KillRes.ok, removeId i r,
       termTraceV1 e.procId exited graceOk ++ cleanupTrace e cfgEx ++ [Act.removeEntry i])

/-- Per-entry actions of kill_all_pipelines in loop order. -/
def killAllActs (exF grF : Nat → Bool) (cfgEx : String → Bool) : Registry → List Act
  | [] => []
  | e :: r =>
      termTrace e.procId (exF e.procId) (grF e.procId) ++
      cleanupTrace e (cfgEx e.tempConfigPath) ++ killAllActs exF grF cfgEx r

/-- kill_all_pipelines of manager_v2.py: terminate and clean up every entry
in loop order, then clear the dict. -/
def killAllV2 (r : Registry) (exF grF : Nat → Bool) (cfgEx : String → Bool) :
    Registry × List Act :=
  ([], killAllActs exF grF cfgEx r ++ removeActs r)

/-- Per-entry actions of cleanup_all in manager_v2.py: the same sequence as
kill-all, written inline in the source. -/
def cleanupAllActs (exF grF : Nat → Bool) (cfgEx : String → Bool) : Registry → List Act
  | [] => []
  | e :: r =>
      termTrace e.procId (exF e.procId) (grF e.procId) ++
      cleanupTrace e (cfgEx e.tempConfigPath) ++ cleanupAllActs exF grF cfgEx r

/-- cleanup_all of manager_v2.py (shutdown path), up to the orphan purge of
the temp-config directory which touches no registered pipeline. -/
def cleanupAllV2 (r : Registry) (exF grF : Nat → Bool) (cfgEx : String → Bool) :
    Registry × List Act :=
  ([], cleanupAllActs exF grF cfgEx r ++ removeActs r)

/-- One row of the GET /pipelines response. -/
structure Summary where
  id : String
  port : Nat
  config : String
  pid : Nat
  running : Bool
  deriving DecidableEq, Repr

def summaries (dead : Nat → Bool) : Registry → List Summary
  | [] => []
  | e :: r =>
      { id := e.id, port := e.port, config := e.baseConfigPath,
        pid := e.procId, running := !dead e.procId } :: summaries dead r

/-- list_pipelines of manager_v2.py: run a health check first, then report
one row per remaining entry with liveness re-queried, and the row count. -/
def listV2 (r : Registry) (dead : Nat → Bool) (cfgEx : String → Bool) :
    List Summary × Nat × Registry :=
  let r1 := (scanV2 r dead cfgEx).1
  let xs := summaries dead r1
  (xs, xs.length, r1)

/-- The control-surface operations that mutate the registry. -/
inductive Op where
  | spawn (cfg : String) (req : Option Nat) (env : SpawnEnv)
  | kill (i : String) (exited graceOk cfgEx : Bool)
  | scan (dead : Nat → Bool) (cfgEx : String → Bool)
  | killAll (exF grF : Nat → Bool) (cfgEx : String → Bool)

def stepOp (r : Registry) : Op → Registry
  | Op.spawn cfg req env => (spawnV2 r cfg req env).2.1
  | Op.kill i a b c => (killV2 r i a b c).2.1
  | Op.scan d c => (scanV2 r d c).1
  | Op.killAll a b c => (killAllV2 r a b c).1

/-- The registry reached from the initially empty dict by a sequence of
operations. -/
def run (ops : List Op) : Registry := List.foldl stepOp [] ops

/-! ### Port allocator correctness -/

theorem scanPort_correct (used : List Nat) :
    ∀ fuel p, (∃ k, k < fuel ∧ (p + k) ∉ used) →
      p ≤ scanPort used p fuel ∧ scanPort used p fuel ∉ used ∧
        ∀ q, p ≤ q → q ∉ used → scanPort used p fuel ≤ q := by
  intro fuel
  induction fuel with
  | zero =>
    intro p h
    obtain ⟨k, hk, _⟩ := h
    omega
  | succ fuel ih =>
    intro p h
    by_cases hp : p ∈ used
    · obtain ⟨k, hk, hfree⟩ := h
      have hk0 : k ≠ 0 := by
        intro hk0
        rw [hk0] at hfree
        simp at hfree
        exact hfree hp
      obtain ⟨k1, rfl⟩ := Nat.exists_eq_succ_of_ne_zero hk0
      have hex : ∃ k, k < fuel ∧ (p + 1 + k) ∉ used := by
        refine ⟨k1, by omega, ?_⟩
        have : p + 1 + k1 = p + (k1 + 1) := by omega
        rw [this]
        exact hfree
      obtain ⟨h1, h2, h3⟩ := ih (p + 1) hex
      refine ⟨?_, ?_, ?_⟩
      · simp [scanPort, hp]
        omega
      · simp [scanPort, hp]
        exact h2
      · intro q hq hqf
        simp [scanPort, hp]
        have hqp : p ≠ q := fun hh => hqf (hh ▸ hp)
        exact h3 q (by omega) hqf
    · refine ⟨?_, ?_, ?_⟩
      · simp [scanPort, hp]
      · simp [scanPort, hp]
      · intro q hq _
        simp [scanPort, hp]
        exact hq

theorem exists_free_near (used : List Nat) (p : Nat) :
    ∃ k, k ≤ used.length ∧ (p + k) ∉ used := by
  by_contra h
  push_neg at h
  have hsub : ((List.range (used.length + 1)).map (fun k => p + k)) ⊆ used := by
    intro q hq
    simp [List.mem_map, List.mem_range] at hq
    obtain ⟨k, hk, rfl⟩ := hq
    exact h k (by omega)
  have hnd : ((List.range (used.length + 1)).map (fun k => p + k)).Nodup := by
    refine List.Nodup.map ?_ (List.nodup_range _)
    intro a b hab
    simpa using hab
  have := (List.subperm_of_subset hnd hsub).length_le
  simp at this

theorem allocatePort_spec (used : List Nat) :
    9000 ≤ allocatePort used ∧ allocatePort used ∉ used ∧
      ∀ q, 9000 ≤ q → q ∉ used → allocatePort used ≤ q := by
  have hex : ∃ k, k < used.length + 1 ∧ (9000 + k) ∉ used := by
    obtain ⟨k, hk, hfree⟩ := exists_free_near used 9000
    exact ⟨k, by omega, hfree⟩
  exact scanPort_correct used (used.length + 1) 9000 hex

theorem allocatePort_pos (used : List Nat) : 0 < allocatePort used := by
  have := (allocatePort_spec used).1
  omega

/-- Extensional determinism: the allocated port depends only on the set of
used ports. -/
theorem allocatePort_ext (u1 u2 : List Nat) (h : ∀ p, p ∈ u1 ↔ p ∈ u2) :
    allocatePort u1 = allocatePort u2 := by
  obtain ⟨ha1, ha2, ha3⟩ := allocatePort_spec u1
  obtain ⟨hb1, hb2, hb3⟩ := allocatePort_spec u2
  have h1 : allocatePort u1 ≤ allocatePort u2 := ha3 _ hb1 (fun hm => hb2 ((h _).1 hm))
  have h2 : allocatePort u2 ≤ allocatePort u1 := hb3 _ ha1 (fun hm => ha2 ((h _).2 hm))
  omega

/-! ### Registry invariant -/

/-- The registry invariant: ids are pairwise distinct (dict keys), ports are
pairwise distinct, and every held port is positive. -/
def Inv (r : Registry) : Prop :=
  (idsOf r).Nodup ∧ (portsOf r).Nodup ∧ ∀ e ∈ r, 0 < e.port

theorem scanStep_sublist (dead : Nat → Bool) : ∀ r : Registry, (scanStep dead r).Sublist r
  | [] => List.Sublist.slnil
  | e :: r => by
    by_cases h : dead e.procId
    · simpa [scanStep, h] using (scanStep_sublist dead r).cons e
    · simpa [scanStep, h] using (scanStep_sublist dead r).cons₂ e

theorem removeId_sublist (i : String) : ∀ r : Registry, (removeId i r).Sublist r
  | [] => List.Sublist.slnil
  | e :: r => by
    by_cases h : e.id = i
    · simpa [removeId, h] using (removeId_sublist i r).cons e
    · simpa [removeId, h] using (removeId_sublist i r).cons₂ e

theorem Inv_of_sublist {r2 r : Registry} (h : r2.Sublist r) (hi : Inv r) : Inv r2 := by
  obtain ⟨h1, h2, h3⟩ := hi
  refine ⟨(h.map Entry.id).nodup h1, (h.map Entry.port).nodup h2, ?_⟩
  intro e he
  exact h3 e (h.subset he)

theorem hasId_false (r : Registry) (i : String) :
    hasId r i = false ↔ ∀ e ∈ r, e.id ≠ i := by
  induction r with
  | nil => simp [hasId]
  | cons x r ih => simp [hasId, ih]

theorem replaceId_of_not_hasId (r : Registry) (e : Entry) (h : hasId r e.id = false) :
    replaceId r e = r := by
  induction r with
  | nil => simp [replaceId]
  | cons x r ih =>
    simp [hasId] at h
    simp [replaceId, h.1, ih h.2]

theorem mem_replaceId (r : Registry) (e x : Entry) (h : x ∈ replaceId r e) :
    x = e ∨ x ∈ r := by
  induction r with
  | nil => simp [replaceId] at h
  | cons y r ih =>
    by_cases hy : y.id = e.id
    · simp [replaceId, hy] at h
      rcases h with h | h
      · exact Or.inl h
      · rcases ih h with h2 | h2
        · exact Or.inl h2
        · exact Or.inr (List.mem_cons_of_mem y h2)
    · simp [replaceId, hy] at h
      rcases h with h | h
      · exact Or.inr (h ▸ List.mem_cons_self y r)
      · rcases ih h with h2 | h2
        · exact Or.inl h2
        · exact Or.inr (List.mem_cons_of_mem y h2)

theorem idsOf_replaceId (r : Registry) (e : Entry) : idsOf (replaceId r e) = idsOf r := by
  induction r with
  | nil => rfl
  | cons x r ih =>
    by_cases hx : x.id = e.id
    · rw [replaceId, if_pos hx]
      show e.id :: idsOf (replaceId r e) = x.id :: idsOf r
      rw [ih, hx]
    · rw [replaceId, if_neg hx]
      show x.id :: idsOf (replaceId r e) = x.id :: idsOf r
      rw [ih]

theorem mem_ports_replaceId (r : Registry) (e : Entry) (q : Nat)
    (h : q ∈ portsOf (replaceId r e)) : q = e.port ∨ q ∈ portsOf r := by
  induction r with
  | nil => simp [replaceId, portsOf] at h
  | cons x r ih =>
    by_cases hx : x.id = e.id
    · rw [replaceId, if_pos hx] at h
      have h2 : q = e.port ∨ q ∈ portsOf (replaceId r e) := List.mem_cons.1 h
      rcases h2 with h2 | h2
      · exact Or.inl h2
      · rcases ih h2 with h3 | h3
        · exact Or.inl h3
        · exact Or.inr (List.mem_cons.2 (Or.inr h3))
    · rw [replaceId, if_neg hx] at h
      have h2 : q = x.port ∨ q ∈ portsOf (replaceId r e) := List.mem_cons.1 h
      rcases h2 with h2 | h2
      · exact Or.inr (List.mem_cons.2 (Or.inl h2))
      · rcases ih h2 with h3 | h3
        · exact Or.inl h3
        · exact Or.inr (List.mem_cons.2 (Or.inr h3))

theorem ports_replaceId_nodup (r : Registry) (e : Entry)
    (hids : (idsOf r).Nodup) (hports : (portsOf r).Nodup)
    (hfresh : e.port ∉ portsOf r) : (portsOf (replaceId r e)).Nodup := by
  induction r with
  | nil => simp [replaceId, portsOf]
  | cons x r ih =>
    have hids2 : x.id ∉ idsOf r ∧ (idsOf r).Nodup := by
      have := hids
      rw [show idsOf (x :: r) = x.id :: idsOf r from rfl, List.nodup_cons] at this
      exact this
    have hports2 : x.port ∉ portsOf r ∧ (portsOf r).Nodup := by
      have := hports
      rw [show portsOf (x :: r) = x.port :: portsOf r from rfl, List.nodup_cons] at this
      exact this
    have hfresh2 : e.port ≠ x.port ∧ e.port ∉ portsOf r := by
      rw [show portsOf (x :: r) = x.port :: portsOf r from rfl, List.mem_cons] at hfresh
      exact ⟨fun hc => hfresh (Or.inl hc), fun hc => hfresh (Or.inr hc)⟩
    by_cases hx : x.id = e.id
    · have hno : hasId r e.id = false := by
        refine (hasId_false r e.id).2 ?_
        intro y hy hc
        refine hids2.1 ?_
        rw [hx, ← hc]
        exact List.mem_map_of_mem Entry.id hy
      rw [replaceId, if_pos hx, replaceId_of_not_hasId r e hno]
      rw [show portsOf (e :: r) = e.port :: portsOf r from rfl, List.nodup_cons]
      exact ⟨hfresh2.2, hports2.2⟩
    · rw [replaceId, if_neg hx]
      rw [show portsOf (x :: replaceId r e) = x.port :: portsOf (replaceId r e) from rfl,
        List.nodup_cons]
      constructor
      · intro hmem
        rcases mem_ports_replaceId r e x.port hmem with h2 | h2
        · exact hfresh2.1 h2.symm
        · exact hports2.1 h2
      · exact ih hids2.2 hports2.2 hfresh2.2

theorem Inv_dictInsert (r : Registry) (e : Entry) (hi : Inv r)
    (hfresh : e.port ∉ portsOf r) (hpos : 0 < e.port) : Inv (dictInsert r e) := by
  obtain ⟨h1, h2, h3⟩ := hi
  unfold dictInsert
  by_cases hh : hasId r e.id = true
  · rw [if_pos hh]
    refine ⟨by rwa [idsOf_replaceId], ports_replaceId_nodup r e h1 h2 hfresh, ?_⟩
    intro x hx
    rcases mem_replaceId r e x hx with h | h
    · exact h ▸ hpos
    · exact h3 x h
  · have hh2 : hasId r e.id = false := by
      cases hv : hasId r e.id
      · rfl
      · exact absurd hv hh
    rw [if_neg hh]
    have hid : e.id ∉ idsOf r := by
      intro hm
      have hm2 : e.id ∈ List.map Entry.id r := hm
      rw [List.mem_map] at hm2
      obtain ⟨y, hy, hyid⟩ := hm2
      exact (hasId_false r e.id).1 hh2 y hy hyid
    refine ⟨?_, ?_, ?_⟩
    · show (List.map Entry.id (r ++ [e])).Nodup
      rw [List.map_append, List.nodup_append]
      refine ⟨h1, by simp, ?_⟩
      intro a ha hb
      simp at hb
      exact hid (hb ▸ ha)
    · show (List.map Entry.port (r ++ [e])).Nodup
      rw [List.map_append, List.nodup_append]
      refine ⟨h2, by simp, ?_⟩
      intro a ha hb
      simp at hb
      exact hfresh (hb ▸ ha)
    · intro x hx
      rcases List.mem_append.1 hx with h | h
      · exact h3 x h
      · simp at h
        exact h ▸ hpos

theorem truthyPort_pos (req : Option Nat) (p : Nat) (h : truthyPort req = some p) :
    0 < p := by
  cases req with
  | none => simp [truthyPort] at h
  | some q =>
    cases q with
    | zero => simp [truthyPort] at h
    | succ n =>
      simp [truthyPort] at h
      omega

theorem Inv_spawnLaunch (r : Registry) (cfg : String) (p : Nat) (env : SpawnEnv)
    (pre : List Act) (hi : Inv r) (hfresh : p ∉ portsOf r) (hpos : 0 < p) :
    Inv (spawnLaunch r cfg p env pre).2.1 := by
  unfold spawnLaunch
  cases hg : env.genOk with
  | false => simpa [hg] using hi
  | true =>
    cases hl : env.launchOk with
    | false => simpa [hg, hl] using hi
    | true =>
      simp [hg, hl]
      exact Inv_dictInsert r _ hi hfresh hpos

theorem Inv_nil : Inv ([] : Registry) := by
  refine ⟨by simp [idsOf], by simp [portsOf], by simp⟩

theorem Inv_stepOp (r : Registry) (op : Op) (hi : Inv r) : Inv (stepOp r op) := by
  cases op with
  | spawn cfg req env =>
    show Inv (spawnV2 r cfg req env).2.1
    unfold spawnV2
    by_cases hc : cfg = ""
    · simpa [hc] using hi
    · rw [if_neg hc]
      have hscan : Inv (scanStep env.dead r) := Inv_of_sublist (scanStep_sublist env.dead r) hi
      cases ht : truthyPort req with
      | none =>
        simp only
        exact Inv_spawnLaunch _ cfg _ env _ hscan
          (allocatePort_spec (portsOf (scanStep env.dead r))).2.1
          (allocatePort_pos _)
      | some p =>
        simp only
        by_cases hm : p ∈ portsOf (scanStep env.dead r)
        · simpa [hm] using hscan
        · rw [if_neg hm]
          exact Inv_spawnLaunch _ cfg _ env _ hscan hm (truthyPort_pos req p ht)
  | kill i a b c =>
    show Inv (killV2 r i a b c).2.1
    unfold killV2
    cases lookupReg r i with
    | none => exact hi
    | some e => exact Inv_of_sublist (removeId_sublist i r) hi
  | scan d c =>
    exact Inv_of_sublist (scanStep_sublist d r) hi
  | killAll a b c =>
    exact Inv_nil

theorem Inv_foldl (ops : List Op) : ∀ r, Inv r → Inv (List.foldl stepOp r ops) := by
  induction ops with
  | nil => intro r h; exact h
  | cons op ops ih =>
    intro r h
    exact ih _ (Inv_stepOp r op h)

theorem Inv_run (ops : List Op) : Inv (run ops) := Inv_foldl ops [] Inv_nil

/-! ### Lookup and scan lemmas -/

theorem lookupReg_none (r : Registry) (i : String) (h : i ∉ idsOf r) :
    lookupReg r i = none := by
  induction r with
  | nil => rfl
  | cons e r ih =>
    rw [show idsOf (e :: r) = e.id :: idsOf r from rfl, List.mem_cons] at h
    rw [lookupReg, if_neg (fun hc => h (Or.inl hc.symm))]
    exact ih (fun hc => h (Or.inr hc))

theorem lookupReg_mem (r : Registry) (e : Entry) (hids : (idsOf r).Nodup) (he : e ∈ r) :
    lookupReg r e.id = some e := by
  induction r with
  | nil => simp at he
  | cons x r ih =>
    rw [show idsOf (x :: r) = x.id :: idsOf r from rfl, List.nodup_cons] at hids
    rcases List.mem_cons.1 he with h | h
    · rw [h, lookupReg, if_pos rfl]
    · have hne : x.id ≠ e.id := by
        intro hc
        exact hids.1 (hc ▸ List.mem_map_of_mem Entry.id h)
      rw [lookupReg, if_neg hne]
      exact ih hids.2 h

theorem mem_scanStep (dead : Nat → Bool) (r : Registry) (e : Entry)
    (he : e ∈ r) (hd : dead e.procId = false) : e ∈ scanStep dead r := by
  induction r with
  | nil => simp at he
  | cons x r ih =>
    rcases List.mem_cons.1 he with h | h
    · have hx := h.symm
      subst hx
      rw [scanStep, if_neg (by simp [hd])]
      exact List.mem_cons_self _ _
    · by_cases hx : dead x.procId
      · rw [scanStep, if_pos hx]
        exact ih h
      · rw [scanStep, if_neg hx]
        exact List.mem_cons_of_mem x (ih h)

theorem scanStep_mem_dead (dead : Nat → Bool) (r : Registry) (e : Entry)
    (he : e ∈ scanStep dead r) : dead e.procId = false := by
  induction r with
  | nil => simp [scanStep] at he
  | cons x r ih =>
    by_cases hx : dead x.procId
    · rw [scanStep, if_pos hx] at he
      exact ih he
    · rw [scanStep, if_neg hx] at he
      rcases List.mem_cons.1 he with h | h
      · rw [h]
        simpa using hx
      · exact ih h

theorem scanStep_noop (dead : Nat → Bool) (r : Registry)
    (h : ∀ e ∈ r, dead e.procId = false) : scanStep dead r = r := by
  induction r with
  | nil => rfl
  | cons x r ih =>
    rw [scanStep, if_neg (by simp [h x (List.mem_cons_self x r)]), ih]
    intro e he
    exact h e (List.mem_cons_of_mem x he)

theorem mem_deadOnes (dead : Nat → Bool) (r : Registry) (e : Entry)
    (he : e ∈ r) (hd : dead e.procId = true) : e ∈ deadOnes dead r := by
  induction r with
  | nil => simp at he
  | cons x r ih =>
    rcases List.mem_cons.1 he with h | h
    · have hx := h.symm
      subst hx
      rw [deadOnes, if_pos hd]
      exact List.mem_cons_self _ _
    · by_cases hx : dead x.procId
      · rw [deadOnes, if_pos hx]
        exact List.mem_cons_of_mem x (ih h)
      · rw [deadOnes, if_neg hx]
        exact ih h

theorem deadOnes_sublist (dead : Nat → Bool) : ∀ r : Registry, (deadOnes dead r).Sublist r
  | [] => List.Sublist.slnil
  | e :: r => by
    by_cases h : dead e.procId
    · simpa [deadOnes, h] using (deadOnes_sublist dead r).cons₂ e
    · simpa [deadOnes, h] using (deadOnes_sublist dead r).cons e

theorem id_not_in_scanStep (dead : Nat → Bool) (r : Registry) (e : Entry)
    (hids : (idsOf r).Nodup) (he : e ∈ r) (hd : dead e.procId = true) :
    e.id ∉ idsOf (scanStep dead r) := by
  induction r with
  | nil => simp at he
  | cons x r ih =>
    rw [show idsOf (x :: r) = x.id :: idsOf r from rfl, List.nodup_cons] at hids
    rcases List.mem_cons.1 he with h | h
    · have hx := h.symm
      subst hx
      rw [scanStep, if_pos hd]
      intro hc
      exact hids.1 ((List.Sublist.map Entry.id (scanStep_sublist dead r)).subset hc)
    · by_cases hx : dead x.procId
      · rw [scanStep, if_pos hx]
        exact ih hids.2 h
      · rw [scanStep, if_neg hx]
        rw [show idsOf (x :: scanStep dead r) = x.id :: idsOf (scanStep dead r) from rfl]
        intro hc
        rcases List.mem_cons.1 hc with h2 | h2
        · exact hids.1 (h2 ▸ List.mem_map_of_mem Entry.id h)
        · exact ih hids.2 h h2

/-! ### Trace projection to a single pipeline -/

/-- Whether an action concerns the given pipeline: its process, its log, its
materialized config file, or its registry slot. -/
def touches (e : Entry) : Act → Bool
  | Act.sigTerm p => p = e.procId
  | Act.waitGrace p _ => p = e.procId
  | Act.sigKill p => p = e.procId
  | Act.waitFull p => p = e.procId
  | Act.closeLog i => i = e.id
  | Act.removeCfg s => s = e.tempConfigPath
  | Act.removeEntry i => i = e.id
  | Act.writeFile _ => false
  | Act.openLog _ _ _ => false
  | Act.popen _ _ _ _ => false

/-- Actions targeting one pipeline never mention the resources of another
entry with different process id, id and config path. -/
def Untouched (e x : Entry) : Prop :=
  x.procId ≠ e.procId ∧ x.id ≠ e.id ∧ x.tempConfigPath ≠ e.tempConfigPath

theorem termTrace_filter_self (e : Entry) (a b : Bool) :
    (termTrace e.procId a b).filter (touches e) = termTrace e.procId a b := by
  cases a <;> cases b <;> simp [termTrace, touches]

theorem termTrace_filter_other (e : Entry) (p : Nat) (a b : Bool) (h : p ≠ e.procId) :
    (termTrace p a b).filter (touches e) = [] := by
  cases a <;> cases b <;> simp [termTrace, touches, h]

theorem cleanupTrace_filter_self (e : Entry) (b : Bool) :
    (cleanupTrace e b).filter (touches e) = cleanupTrace e b := by
  cases b <;> simp [cleanupTrace, touches]

theorem cleanupTrace_filter_other (e x : Entry) (b : Bool) (h : Untouched e x) :
    (cleanupTrace x b).filter (touches e) = [] := by
  cases b <;> simp [cleanupTrace, touches, h.2.1, h.2.2]

theorem removeActs_filter_none (e : Entry) (r : Registry) (h : e.id ∉ idsOf r) :
    (removeActs r).filter (touches e) = [] := by
  induction r with
  | nil => rfl
  | cons x r ih =>
    rw [show idsOf (x :: r) = x.id :: idsOf r from rfl, List.mem_cons] at h
    rw [removeActs, List.filter_cons]
    rw [if_neg (by simp [touches]; exact fun hc => h (Or.inl hc.symm))]
    exact ih (fun hc => h (Or.inr hc))

theorem removeActs_filter (e : Entry) (r : Registry)
    (hids : (idsOf r).Nodup) (he : e ∈ r) :
    (removeActs r).filter (touches e) = [Act.removeEntry e.id] := by
  induction r with
  | nil => simp at he
  | cons x r ih =>
    rw [show idsOf (x :: r) = x.id :: idsOf r from rfl, List.nodup_cons] at hids
    rcases List.mem_cons.1 he with h | h
    · rw [removeActs, List.filter_cons, if_pos (by simp [touches, h])]
      rw [removeActs_filter_none e r (h ▸ hids.1), h]
    · have hne : x.id ≠ e.id := by
        intro hc
        exact hids.1 (hc ▸ List.mem_map_of_mem Entry.id h)
      rw [removeActs, List.filter_cons,
        if_neg (by simp [touches]; exact hne)]
      exact ih hids.2 h

theorem killAllActs_filter_none (e : Entry) (exF grF : Nat → Bool) (cEx : String → Bool)
    (r : Registry) (h : ∀ x ∈ r, Untouched e x) :
    (killAllActs exF grF cEx r).filter (touches e) = [] := by
  induction r with
  | nil => rfl
  | cons x r ih =>
    have hx := h x (List.mem_cons_self x r)
    rw [killAllActs, List.filter_append, List.filter_append,
      termTrace_filter_other e x.procId _ _ hx.1,
      cleanupTrace_filter_other e x _ hx,
      ih (fun y hy => h y (List.mem_cons_of_mem x hy))]
    rfl

theorem killAllActs_filter (e : Entry) (exF grF : Nat → Bool) (cEx : String → Bool)
    (r : Registry) (hids : (idsOf r).Nodup) (he : e ∈ r)
    (hdist : ∀ x ∈ r, x = e ∨ Untouched e x) :
    (killAllActs exF grF cEx r).filter (touches e) =
      termTrace e.procId (exF e.procId) (grF e.procId) ++
        cleanupTrace e (cEx e.tempConfigPath) := by
  induction r with
  | nil => simp at he
  | cons x r ih =>
    rw [show idsOf (x :: r) = x.id :: idsOf r from rfl, List.nodup_cons] at hids
    rcases List.mem_cons.1 he with h | h
    · subst h
      rw [killAllActs, List.filter_append, List.filter_append,
        termTrace_filter_self, cleanupTrace_filter_self]
      have hrest : (killAllActs exF grF cEx r).filter (touches e) = [] := by
        refine killAllActs_filter_none e exF grF cEx r ?_
        intro y hy
        rcases hdist y (List.mem_cons_of_mem e hy) with h2 | h2
        · exact absurd (h2 ▸ List.mem_map_of_mem Entry.id hy) hids.1
        · exact h2
      rw [hrest, List.append_nil]
    · have hx : Untouched e x := by
        rcases hdist x (List.mem_cons_self x r) with h2 | h2
        · exact absurd (h2 ▸ List.mem_map_of_mem Entry.id h) (h2 ▸ hids.1)
        · exact h2
      rw [killAllActs, List.filter_append, List.filter_append,
        termTrace_filter_other e x.procId _ _ hx.1,
        cleanupTrace_filter_other e x _ hx,
        ih hids.2 h (fun y hy => hdist y (List.mem_cons_of_mem x hy))]
      rfl

theorem cleanupAllActs_eq_killAllActs (exF grF : Nat → Bool) (cEx : String → Bool)
    (r : Registry) : cleanupAllActs exF grF cEx r = killAllActs exF grF cEx r := by
  induction r with
  | nil => rfl
  | cons x r ih => rw [cleanupAllActs, killAllActs, ih]

theorem flatCleanup_filter_none (e : Entry) (cEx : String → Bool) (r : Registry)
    (h : ∀ x ∈ r, Untouched e x) :
    (flatCleanup cEx r).filter (touches e) = [] := by
  induction r with
  | nil => rfl
  | cons x r ih =>
    have hx := h x (List.mem_cons_self x r)
    rw [flatCleanup, List.filter_append, cleanupTrace_filter_other e x _ hx,
      ih (fun y hy => h y (List.mem_cons_of_mem x hy))]
    rfl

theorem flatCleanup_filter (e : Entry) (cEx : String → Bool) (r : Registry)
    (hids : (idsOf r).Nodup) (he : e ∈ r)
    (hdist : ∀ x ∈ r, x = e ∨ Untouched e x) :
    (flatCleanup cEx r).filter (touches e) = cleanupTrace e (cEx e.tempConfigPath) := by
  induction r with
  | nil => simp at he
  | cons x r ih =>
    rw [show idsOf (x :: r) = x.id :: idsOf r from rfl, List.nodup_cons] at hids
    rcases List.mem_cons.1 he with h | h
    · subst h
      rw [flatCleanup, List.filter_append, cleanupTrace_filter_self]
      have hrest : (flatCleanup cEx r).filter (touches e) = [] := by
        refine flatCleanup_filter_none e cEx r ?_
        intro y hy
        rcases hdist y (List.mem_cons_of_mem e hy) with h2 | h2
        · exact absurd (h2 ▸ List.mem_map_of_mem Entry.id hy) hids.1
        · exact h2
      rw [hrest, List.append_nil]
    · have hx : Untouched e x := by
        rcases hdist x (List.mem_cons_self x r) with h2 | h2
        · exact absurd (h2 ▸ List.mem_map_of_mem Entry.id h) (h2 ▸ hids.1)
        · exact h2
      rw [flatCleanup, List.filter_append, cleanupTrace_filter_other e x _ hx,
        ih hids.2 h (fun y hy => hdist y (List.mem_cons_of_mem x hy))]
      rfl

/-- Every forced kill is immediately followed by an unconditional wait on the
same process. -/
def killsWaited : List Act → Bool
  | [] => true
  | Act.sigKill p :: Act.waitFull q :: rest =>
      decide (q = p) && killsWaited (Act.waitFull q :: rest)
  | Act.sigKill _ :: _ => false
  | _ :: rest => killsWaited rest

/-- Actions performed by dead-pipeline cleanup: log close, config removal,
registry removal. No signal, no file creation, no process launch. -/
def isCleanupAct : Act → Bool
  | Act.closeLog _ => true
  | Act.removeCfg _ => true
  | Act.removeEntry _ => true
  | _ => false

theorem cleanupTrace_cleanup (e : Entry) (b : Bool) :
    ∀ a ∈ cleanupTrace e b, isCleanupAct a = true := by
  cases b <;> simp [cleanupTrace, isCleanupAct]

theorem flatCleanup_cleanup (cEx : String → Bool) (r : Registry) :
    ∀ a ∈ flatCleanup cEx r, isCleanupAct a = true := by
  induction r with
  | nil => simp [flatCleanup]
  | cons x r ih =>
    intro a ha
    rcases List.mem_append.1 ha with h | h
    · exact cleanupTrace_cleanup x _ a h
    · exact ih a h

theorem removeActs_cleanup (r : Registry) :
    ∀ a ∈ removeActs r, isCleanupAct a = true := by
  induction r with
  | nil => simp [removeActs]
  | cons x r ih =>
    intro a ha
    rcases List.mem_cons.1 ha with h | h
    · rw [h]
      rfl
    · exact ih a h

theorem scanActs_cleanup (r : Registry) (dead : Nat → Bool) (cEx : String → Bool) :
    ∀ a ∈ (scanV2 r dead cEx).2, isCleanupAct a = true := by
  intro a ha
  rcases List.mem_append.1 ha with h | h
  · exact flatCleanup_cleanup cEx _ a h
  · exact removeActs_cleanup _ a h

theorem summaries_scan (dead : Nat → Bool) (r2 : Registry)
    (h : ∀ e ∈ r2, dead e.procId = false) :
    summaries dead r2 =
      r2.map (fun e => ⟨e.id, e.port, e.baseConfigPath, e.procId, true⟩) := by
  induction r2 with
  | nil => rfl
  | cons x r2 ih =>
    rw [summaries, List.map_cons, ih (fun e he => h e (List.mem_cons_of_mem x he))]
    have hx : dead x.procId = false := h x (List.mem_cons_self x r2)
    rw [hx]
    rfl

/-- The file modes of the log-open actions of a trace, in order. -/
def openModes : List Act → List FileMode
  | [] => []
  | Act.openLog _ m _ :: t => m :: openModes t
  | _ :: t => openModes t

/-! ### Claims -/

/-- Claim C1: starting from the empty registry, after any sequence of spawn,
terminate, health-scan and kill-all operations the ports held by the
registered pipelines are pairwise distinct. -/
theorem ports_distinct_invariant (ops : List Op) : (portsOf (run ops)).Nodup :=
  (Inv_run ops).2.1

/-- Claim C2: spawning without an explicit port allocates the smallest port
at or above 9000 not among the ports in use at allocation time; the choice
depends only on the set of used ports, so equal sets give equal answers; and
both managers assign exactly this allocated port on a successful spawn
without a requested port (for manager_v2.py the in-use set is the registry
after its pre-spawn health scan; manager.py allocates against the registry
directly). -/
theorem auto_port_allocation (used u2 : List Nat) (r : Registry) (cfg : String)
    (env : SpawnEnv) :
    (9000 ≤ allocatePort used ∧ allocatePort used ∉ used ∧
      ∀ q, 9000 ≤ q → q ∉ used → allocatePort used ≤ q)
    ∧ ((∀ p, p ∈ used ↔ p ∈ u2) → allocatePort used = allocatePort u2)
    ∧ (∀ i p, (spawnV2 r cfg none env).1 = SpawnRes.created i p →
        p = allocatePort (portsOf (scanStep env.dead r)))
    ∧ (∀ i p, (spawnV1 r cfg none env).1 = SpawnRes.created i p →
        p = allocatePort (portsOf r)) := by
  refine ⟨allocatePort_spec used, allocatePort_ext used u2, ?_, ?_⟩
  · intro i p h
    by_cases hc : cfg = ""
    · simp [spawnV2, hc] at h
    · cases hg : env.genOk with
      | false => simp [spawnV2, spawnLaunch, truthyPort, hc, hg] at h
      | true =>
        cases hl : env.launchOk with
        | false => simp [spawnV2, spawnLaunch, truthyPort, hc, hg, hl] at h
        | true =>
          simp [spawnV2, spawnLaunch, truthyPort, hc, hg, hl] at h
          exact h.2.symm
  · intro i p h
    by_cases hc : cfg = ""
    · simp [spawnV1, hc] at h
    · cases hg : env.genOk with
      | false => simp [spawnV1, spawnLaunch, truthyPort, hc, hg] at h
      | true =>
        cases hl : env.launchOk with
        | false => simp [spawnV1, spawnLaunch, truthyPort, hc, hg, hl] at h
        | true =>
          simp [spawnV1, spawnLaunch, truthyPort, hc, hg, hl] at h
          exact h.2.symm

/-- Witness for C2: on a registry holding ports 9000 and 9002, a spawn
without a requested port is assigned 9001. -/
theorem auto_port_allocation_witness :
    (spawnV2
        [⟨"aa", 9000, "a.yml", "ta.yml", 1⟩, ⟨"bb", 9002, "a.yml", "tb.yml", 2⟩]
        "a.yml" none ⟨fun _ => false, fun _ => true, true, true, "cc", 3⟩).1 =
      SpawnRes.created "cc" 9001
    ∧ 9001 = allocatePort (portsOf (scanStep (fun _ => false)
        [⟨"aa", 9000, "a.yml", "ta.yml", 1⟩, ⟨"bb", 9002, "a.yml", "tb.yml", 2⟩])) := by
  refine ⟨by decide, ?_⟩
  exact (auto_port_allocation [] []
    [⟨"aa", 9000, "a.yml", "ta.yml", 1⟩, ⟨"bb", 9002, "a.yml", "tb.yml", 2⟩]
    "a.yml" ⟨fun _ => false, fun _ => true, true, true, "cc", 3⟩).2.2.1
    "cc" 9001 (by decide)

/-- Counterexample to C3 as stated: with two pipelines registered on ports
9000 and 9001, where the process of the second has already exited, a spawn
explicitly requesting the in-use port 9000 is answered 409 — but the
registry after the call is not the registry before the call: the pre-spawn
health check inside spawn_pipeline has removed the dead entry. -/
theorem port_conflict_prescan_mutates :
    (spawnV2
        (run [Op.spawn "a.yml" (some 9000) ⟨fun _ => false, fun _ => true, true, true, "aa", 1⟩,
              Op.spawn "a.yml" (some 9001) ⟨fun _ => false, fun _ => true, true, true, "bb", 2⟩])
        "a.yml" (some 9000)
        ⟨fun p => decide (p = 2), fun _ => true, true, true, "cc", 3⟩).1 =
      SpawnRes.conflict 9000
    ∧ (spawnV2
        (run [Op.spawn "a.yml" (some 9000) ⟨fun _ => false, fun _ => true, true, true, "aa", 1⟩,
              Op.spawn "a.yml" (some 9001) ⟨fun _ => false, fun _ => true, true, true, "bb", 2⟩])
        "a.yml" (some 9000)
        ⟨fun p => decide (p = 2), fun _ => true, true, true, "cc", 3⟩).2.1 ≠
      run [Op.spawn "a.yml" (some 9000) ⟨fun _ => false, fun _ => true, true, true, "aa", 1⟩,
           Op.spawn "a.yml" (some 9001) ⟨fun _ => false, fun _ => true, true, true, "bb", 2⟩] := by
  decide

/-- Claim C3 (amended): in every reachable registry state, a spawn whose
explicitly requested port is among the ports registered after the pre-spawn
health scan fails with 409; the registry after the call is exactly the
pre-call registry minus the entries whose processes had already exited
(hence exactly unchanged whenever every registered process is still
running); no entry is added, no config file is materialized, no log is
opened and no process is spawned. In manager.py, which has no pre-spawn
scan, the registry is exactly unchanged unconditionally. -/
theorem port_conflict_rejection_amended (ops : List Op) (cfg : String) (p : Nat)
    (env : SpawnEnv) (hc : cfg ≠ "")
    (hp : p ∈ portsOf (scanStep env.dead (run ops))) :
    (spawnV2 (run ops) cfg (some p) env).1 = SpawnRes.conflict p
    ∧ (spawnV2 (run ops) cfg (some p) env).2.1 = scanStep env.dead (run ops)
    ∧ (∀ e ∈ (spawnV2 (run ops) cfg (some p) env).2.1, e ∈ run ops)
    ∧ (∀ a ∈ (spawnV2 (run ops) cfg (some p) env).2.2, isCleanupAct a = true)
    ∧ ((∀ e ∈ run ops, env.dead e.procId = false) →
        (spawnV2 (run ops) cfg (some p) env).2.1 = run ops)
    ∧ (∀ (r1 : Registry) (q : Nat), 0 < q → q ∈ portsOf r1 →
        spawnV1 r1 cfg (some q) env = (SpawnRes.conflict q, r1, [])) := by
  have hpos : 0 < p := by
    have hp2 : p ∈ List.map Entry.port (scanStep env.dead (run ops)) := hp
    rw [List.mem_map] at hp2
    obtain ⟨e, he, hep⟩ := hp2
    have := (Inv_run ops).2.2 e ((scanStep_sublist env.dead (run ops)).subset he)
    omega
  obtain ⟨n, rfl⟩ := Nat.exists_eq_succ_of_ne_zero (Nat.pos_iff_ne_zero.mp hpos)
  have hmain : spawnV2 (run ops) cfg (some (n + 1)) env =
      (SpawnRes.conflict (n + 1), scanStep env.dead (run ops),
        (scanV2 (run ops) env.dead env.cfgEx).2) := by
    rw [spawnV2, if_neg hc]
    simp only [truthyPort]
    rw [if_pos hp]
  refine ⟨by rw [hmain], by rw [hmain], ?_, ?_, ?_, ?_⟩
  · intro e he
    rw [hmain] at he
    exact (scanStep_sublist env.dead (run ops)).subset he
  · intro a ha
    rw [hmain] at ha
    exact scanActs_cleanup (run ops) env.dead env.cfgEx a ha
  · intro hnone
    rw [hmain]
    exact scanStep_noop env.dead (run ops) hnone
  · intro r1 q hq hqmem
    obtain ⟨m, rfl⟩ := Nat.exists_eq_succ_of_ne_zero (Nat.pos_iff_ne_zero.mp hq)
    rw [spawnV1, if_neg hc]
    simp only [truthyPort]
    rw [if_pos hqmem]

/-- Witness for the amended C3: a reachable registry with a live pipeline on
port 9000; requesting 9000 yields 409 and, with no dead process, the
registry is exactly unchanged. -/
theorem port_conflict_rejection_amended_witness :
    ("a.yml" ≠ "" ∧
      9000 ∈ portsOf (scanStep (fun _ => false)
        (run [Op.spawn "a.yml" (some 9000) ⟨fun _ => false, fun _ => true, true, true, "aa", 1⟩])))
    ∧ (spawnV2
        (run [Op.spawn "a.yml" (some 9000) ⟨fun _ => false, fun _ => true, true, true, "aa", 1⟩])
        "a.yml" (some 9000)
        ⟨fun _ => false, fun _ => true, true, true, "cc", 3⟩).1 = SpawnRes.conflict 9000 := by
  refine ⟨⟨by decide, by decide⟩, ?_⟩
  exact (port_conflict_rejection_amended
    [Op.spawn "a.yml" (some 9000) ⟨fun _ => false, fun _ => true, true, true, "aa", 1⟩]
    "a.yml" 9000 ⟨fun _ => false, fun _ => true, true, true, "cc", 3⟩
    (by decide) (by decide)).1

/-- Claim C4: terminating an unknown pipeline id returns 404 and leaves the
registry exactly unchanged, with no process signalled and no file closed or
deleted — in both manager_v2.py and manager.py. -/
theorem unknown_id_kill_noop (r : Registry) (i : String) (a b c : Bool)
    (h : i ∉ idsOf r) :
    killV2 r i a b c = (KillRes.notFound, r, [])
    ∧ killV1 r i a b c = (KillRes.notFound, r, []) := by
  have hl := lookupReg_none r i h
  constructor
  · rw [killV2, hl]
  · rw [killV1, hl]

/-- Witness for C4: deleting id "zz" from a registry holding only "aa". -/
theorem unknown_id_kill_noop_witness :
    ("zz" ∉ idsOf [(⟨"aa", 9000, "a.yml", "ta.yml", 1⟩ : Entry)])
    ∧ killV2 [(⟨"aa", 9000, "a.yml", "ta.yml", 1⟩ : Entry)] "zz" false false true =
        (KillRes.notFound, [(⟨"aa", 9000, "a.yml", "ta.yml", 1⟩ : Entry)], []) := by
  refine ⟨by decide, ?_⟩
  exact (unknown_id_kill_noop [(⟨"aa", 9000, "a.yml", "ta.yml", 1⟩ : Entry)]
    "zz" false false true (by decide)).1

theorem lookupA_ensureSac (d : Doc) :
    lookupA (ensureSac d) "server-app-ctx" = some (sacOf d) := by
  unfold ensureSac
  by_cases hk : hasKey d "server-app-ctx" = true
  · rw [if_pos hk]
    obtain ⟨v, hv⟩ := Option.isSome_iff_exists.1 ((hasKey_isSome d "server-app-ctx").1 hk)
    rw [hv]
    unfold sacOf
    rw [hv]
    rfl
  · have hk2 : hasKey d "server-app-ctx" = false := by
      cases hv : hasKey d "server-app-ctx"
      · rfl
      · exact absurd hv hk
    rw [if_neg hk, lookupA_append_single]
    have hnone : lookupA d "server-app-ctx" = none := by
      cases hv : lookupA d "server-app-ctx" with
      | none => rfl
      | some v =>
        exact absurd ((hasKey_isSome d "server-app-ctx").2 (by simp [hv])) (by simp [hk2])
    rw [hnone]
    unfold sacOf
    rw [hnone]
    rfl

theorem lookupA_ensureSac_other (d : Doc) (k : String) (h : k ≠ "server-app-ctx") :
    lookupA (ensureSac d) k = lookupA d k := by
  unfold ensureSac
  by_cases hk : hasKey d "server-app-ctx" = true
  · rw [if_pos hk]
  · rw [if_neg hk, lookupA_append_single]
    cases hv : lookupA d k with
    | some v => rfl
    | none =>
      simp
      exact fun hc => h hc.symm

theorem lookupA_withForcedSac (d : Doc) (port : Nat) :
    lookupA (withForcedSac d port) "server-app-ctx" =
      some (forcedSac (sacOf d) port) := by
  unfold withForcedSac
  rw [lookupA_ensureSac]
  exact lookupA_setA_same (ensureSac d) "server-app-ctx" _

theorem lookupA_withForcedSac_other (d : Doc) (port : Nat) (k : String)
    (h1 : k ≠ "server-app-ctx") :
    lookupA (withForcedSac d port) k = lookupA d k := by
  unfold withForcedSac
  rw [lookupA_setA_other _ _ _ _ h1]
  exact lookupA_ensureSac_other d k h1

theorem lookupA_transform_sac (d : Doc) (port : Nat) :
    lookupA (transformConfig d port) "server-app-ctx" =
      some (forcedSac (sacOf d) port) := by
  unfold transformConfig
  cases hrs : lookupA (withForcedSac d port) "rest-server" with
  | none => exact lookupA_withForcedSac d port
  | some rs =>
    rw [lookupA_setA_other _ _ _ _ (by decide)]
    exact lookupA_withForcedSac d port

theorem lookupA_transform_other (d : Doc) (port : Nat) (k : String)
    (h1 : k ≠ "server-app-ctx") (h2 : k ≠ "rest-server") :
    lookupA (transformConfig d port) k = lookupA d k := by
  unfold transformConfig
  cases hrs : lookupA (withForcedSac d port) "rest-server" with
  | none => exact lookupA_withForcedSac_other d port k h1
  | some rs =>
    rw [lookupA_setA_other _ _ _ _ h2]
    exact lookupA_withForcedSac_other d port k h1

theorem lookupA_transform_rest (d : Doc) (port : Nat) :
    lookupA (transformConfig d port) "rest-server" =
      (lookupA d "rest-server").map (fun rs => setA rs "enable" (Scalar.i 1)) := by
  have hd2 : lookupA (withForcedSac d port) "rest-server" = lookupA d "rest-server" :=
    lookupA_withForcedSac_other d port "rest-server" (by decide)
  unfold transformConfig
  rw [hd2]
  cases hrs : lookupA d "rest-server" with
  | none =>
    rw [hd2, hrs]
    rfl
  | some rs =>
    rw [lookupA_setA_same]
    rfl

theorem forcedSac_enable (sac : CfgSection) (port : Nat) :
    lookupA (forcedSac sac port) "enable" = some (Scalar.i 1) :=
  lookupA_setA_same _ "enable" _

theorem forcedSac_httpIp (sac : CfgSection) (port : Nat) :
    lookupA (forcedSac sac port) "httpIp" = some (Scalar.s "0.0.0.0") := by
  unfold forcedSac
  rw [lookupA_setA_other _ _ _ _ (by decide)]
  exact lookupA_setA_same _ "httpIp" _

theorem forcedSac_httpPort (sac : CfgSection) (port : Nat) :
    lookupA (forcedSac sac port) "httpPort" = some (Scalar.s (toString port)) := by
  unfold forcedSac
  rw [lookupA_setA_other _ _ _ _ (by decide), lookupA_setA_other _ _ _ _ (by decide)]
  exact lookupA_setA_same _ "httpPort" _

theorem forcedSac_other (sac : CfgSection) (port : Nat) (k : String)
    (h1 : k ≠ "httpPort") (h2 : k ≠ "httpIp") (h3 : k ≠ "enable") :
    lookupA (forcedSac sac port) k = lookupA sac k := by
  unfold forcedSac
  rw [lookupA_setA_other _ _ _ _ h3, lookupA_setA_other _ _ _ _ h2,
    lookupA_setA_other _ _ _ _ h1]

theorem sacOf_transform (d : Doc) (port : Nat) :
    sacOf (transformConfig d port) = forcedSac (sacOf d) port := by
  unfold sacOf
  rw [lookupA_transform_sac]
  rfl

/-- Claim C5: config materialization. A missing template fails with
ConfigNotFound. On a parsed template, generate_config writes exactly one new
file, at the temp-config path named by the generated id and the port,
containing the transformed document, and leaves every other path — the
template included — untouched. The transformed document carries the three
forced network settings of the primary server block (bind port as the
decimal string of the port, bind address "0.0.0.0", enable flag 1), keeps
every other key of that block and every other top-level key unchanged, and
force-enables the rest-server block exactly when one is present, keeping its
other keys unchanged. -/
theorem config_materialization (fs : FS) (tpl : String) (port : Nat) (pid : String)
    (d : Doc) :
    (fs tpl = none → generateConfig fs tpl port pid = Except.error CfgErr.notFound)
    ∧ (fs tpl = some d →
        generateConfig fs tpl port pid =
          Except.ok ((pid, pathJoin tempConfigDir (cfgFileName pid port)),
            fun q => if q = pathJoin tempConfigDir (cfgFileName pid port)
              then some (transformConfig d port) else fs q))
    ∧ (∀ out fs2, generateConfig fs tpl port pid = Except.ok (out, fs2) →
        ∀ q, q ≠ out.2 → fs2 q = fs q)
    ∧ lookupA (sacOf (transformConfig d port)) "httpPort" = some (Scalar.s (toString port))
    ∧ lookupA (sacOf (transformConfig d port)) "httpIp" = some (Scalar.s "0.0.0.0")
    ∧ lookupA (sacOf (transformConfig d port)) "enable" = some (Scalar.i 1)
    ∧ (∀ k, k ≠ "httpPort" → k ≠ "httpIp" → k ≠ "enable" →
        lookupA (sacOf (transformConfig d port)) k = lookupA (sacOf d) k)
    ∧ (∀ k, k ≠ "server-app-ctx" → k ≠ "rest-server" →
        lookupA (transformConfig d port) k = lookupA d k)
    ∧ (∀ rs, lookupA d "rest-server" = some rs →
        lookupA (transformConfig d port) "rest-server" =
            some (setA rs "enable" (Scalar.i 1))
          ∧ lookupA (setA rs "enable" (Scalar.i 1)) "enable" = some (Scalar.i 1)
          ∧ ∀ k, k ≠ "enable" →
              lookupA (setA rs "enable" (Scalar.i 1)) k = lookupA rs k)
    ∧ (lookupA d "rest-server" = none →
        lookupA (transformConfig d port) "rest-server" = none) := by
  refine ⟨?_, ?_, ?_, ?_, ?_, ?_, ?_, ?_, ?_, ?_⟩
  · intro h
    rw [generateConfig, h]
  · intro h
    rw [generateConfig, h]
  · intro out fs2 h q hq
    rw [generateConfig] at h
    cases hf : fs tpl with
    | none =>
      rw [hf] at h
      exact absurd h (by simp)
    | some d0 =>
      rw [hf] at h
      injection h with h2
      injection h2 with hout hfs
      rw [← hfs]
      have hq2 : ¬ q = pathJoin tempConfigDir (cfgFileName pid port) := by
        rw [← hout] at hq
        simpa using hq
      simp only [hq2, if_false]
  · rw [sacOf_transform]
    exact forcedSac_httpPort _ port
  · rw [sacOf_transform]
    exact forcedSac_httpIp _ port
  · rw [sacOf_transform]
    exact forcedSac_enable _ port
  · intro k h1 h2 h3
    rw [sacOf_transform]
    exact forcedSac_other _ port k h1 h2 h3
  · intro k h1 h2
    exact lookupA_transform_other d port k h1 h2
  · intro rs hrs
    refine ⟨?_, lookupA_setA_same rs "enable" _, ?_⟩
    · rw [lookupA_transform_rest, hrs]
      rfl
    · intro k hk
      exact lookupA_setA_other rs "enable" k _ hk
  · intro hrs
    rw [lookupA_transform_rest, hrs]
    rfl

/-- Witness for C5: a concrete template with a user section and a disabled
rest-server block, materialized for port 9000 with generated id "abcd". -/
theorem config_materialization_witness :
    ((fun q => if q = "base.yml"
        then some [("source", [("uri", Scalar.s "file.mp4")]),
                   ("rest-server", [("enable", Scalar.i 0), ("port", Scalar.i 1234)])]
        else none) "base.yml" =
      some [("source", [("uri", Scalar.s "file.mp4")]),
            ("rest-server", [("enable", Scalar.i 0), ("port", Scalar.i 1234)])])
    ∧ generateConfig
        (fun q => if q = "base.yml"
          then some [("source", [("uri", Scalar.s "file.mp4")]),
                     ("rest-server", [("enable", Scalar.i 0), ("port", Scalar.i 1234)])]
          else none) "base.yml" 9000 "abcd" =
      Except.ok (("abcd", pathJoin tempConfigDir (cfgFileName "abcd" 9000)),
        fun q => if q = pathJoin tempConfigDir (cfgFileName "abcd" 9000)
          then some (transformConfig
            [("source", [("uri", Scalar.s "file.mp4")]),
             ("rest-server", [("enable", Scalar.i 0), ("port", Scalar.i 1234)])] 9000)
          else (fun q => if q = "base.yml"
            then some [("source", [("uri", Scalar.s "file.mp4")]),
                       ("rest-server", [("enable", Scalar.i 0), ("port", Scalar.i 1234)])]
            else none) q) := by
  refine ⟨rfl, ?_⟩
  exact (config_materialization
    (fun q => if q = "base.yml"
      then some [("source", [("uri", Scalar.s "file.mp4")]),
                 ("rest-server", [("enable", Scalar.i 0), ("port", Scalar.i 1234)])]
      else none) "base.yml" 9000 "abcd"
    [("source", [("uri", Scalar.s "file.mp4")]),
     ("rest-server", [("enable", Scalar.i 0), ("port", Scalar.i 1234)])]).2.1 rfl

/-- Claim C6: destruction completeness and order in manager_v2.py. For a
registered pipeline whose resources are not shared with any other entry,
each of the four destruction triggers — explicit terminate, kill-all, health
scan, shutdown cleanup — performs, within the one operation and restricted
to that pipeline, exactly: process termination if still running, then log
close, then materialized-config deletion, then registry removal, in that
order; the cleanup happens even when a forced kill was needed, and the
health scan (whose targets have by definition already exited) skips the
termination phase. -/
theorem destruction_order (r : Registry) (e : Entry) (exited graceOk : Bool)
    (exF grF : Nat → Bool) (cEx : String → Bool) (dead : Nat → Bool)
    (hids : (idsOf r).Nodup) (he : e ∈ r)
    (hdist : ∀ x ∈ r, x = e ∨ Untouched e x)
    (hcfg : cEx e.tempConfigPath = true) (hdead : dead e.procId = true) :
    (killV2 r e.id exited graceOk true).2.2 =
        termTrace e.procId exited graceOk ++
          [Act.closeLog e.id, Act.removeCfg e.tempConfigPath, Act.removeEntry e.id]
    ∧ ((killAllV2 r exF grF cEx).2.filter (touches e)) =
        termTrace e.procId (exF e.procId) (grF e.procId) ++
          [Act.closeLog e.id, Act.removeCfg e.tempConfigPath, Act.removeEntry e.id]
    ∧ ((scanV2 r dead cEx).2.filter (touches e)) =
        [Act.closeLog e.id, Act.removeCfg e.tempConfigPath, Act.removeEntry e.id]
    ∧ ((cleanupAllV2 r exF grF cEx).2.filter (touches e)) =
        termTrace e.procId (exF e.procId) (grF e.procId) ++
          [Act.closeLog e.id, Act.removeCfg e.tempConfigPath, Act.removeEntry e.id] := by
  have hclean : cleanupTrace e true = [Act.closeLog e.id, Act.removeCfg e.tempConfigPath] := by
    simp [cleanupTrace]
  have hcleanx : cleanupTrace e (cEx e.tempConfigPath) =
      [Act.closeLog e.id, Act.removeCfg e.tempConfigPath] := by
    rw [hcfg]
    exact hclean
  refine ⟨?_, ?_, ?_, ?_⟩
  · rw [killV2, lookupReg_mem r e hids he]
    show termTrace e.procId exited graceOk ++ cleanupTrace e true ++
        [Act.removeEntry e.id] = _
    rw [hclean, List.append_assoc]
    rfl
  · show ((killAllActs exF grF cEx r ++ removeActs r).filter (touches e)) = _
    rw [List.filter_append,
      killAllActs_filter e exF grF cEx r hids he hdist,
      removeActs_filter e r hids he, hcleanx, List.append_assoc]
    rfl
  · show ((flatCleanup cEx (deadOnes dead r) ++
        removeActs (deadOnes dead r)).filter (touches e)) = _
    have hids2 : (idsOf (deadOnes dead r)).Nodup :=
      ((deadOnes_sublist dead r).map Entry.id).nodup hids
    have he2 : e ∈ deadOnes dead r := mem_deadOnes dead r e he hdead
    have hdist2 : ∀ x ∈ deadOnes dead r, x = e ∨ Untouched e x :=
      fun x hx => hdist x ((deadOnes_sublist dead r).subset hx)
    rw [List.filter_append,
      flatCleanup_filter e cEx (deadOnes dead r) hids2 he2 hdist2,
      removeActs_filter e (deadOnes dead r) hids2 he2, hcleanx]
    rfl
  · show ((cleanupAllActs exF grF cEx r ++ removeActs r).filter (touches e)) = _
    rw [cleanupAllActs_eq_killAllActs, List.filter_append,
      killAllActs_filter e exF grF cEx r hids he hdist,
      removeActs_filter e r hids he, hcleanx, List.append_assoc]
    rfl

/-- Witness for C6: a two-pipeline registry; the second pipeline, already
exited and requiring (in the kill paths) a forced kill, is destroyed in the
documented order by all four triggers. -/
theorem destruction_order_witness :
    ((idsOf [(⟨"aa", 9000, "a.yml", "ta.yml", 1⟩ : Entry),
             (⟨"bb", 9001, "a.yml", "tb.yml", 2⟩ : Entry)]).Nodup
      ∧ (⟨"bb", 9001, "a.yml", "tb.yml", 2⟩ : Entry) ∈
          [(⟨"aa", 9000, "a.yml", "ta.yml", 1⟩ : Entry),
           (⟨"bb", 9001, "a.yml", "tb.yml", 2⟩ : Entry)])
    ∧ (killV2 [(⟨"aa", 9000, "a.yml", "ta.yml", 1⟩ : Entry),
               (⟨"bb", 9001, "a.yml", "tb.yml", 2⟩ : Entry)] "bb" false false true).2.2 =
        [Act.sigTerm 2, Act.waitGrace 2 5, Act.sigKill 2, Act.waitFull 2,
         Act.closeLog "bb", Act.removeCfg "tb.yml", Act.removeEntry "bb"] := by
  refine ⟨⟨by decide, by decide⟩, ?_⟩
  have h := (destruction_order
    [(⟨"aa", 9000, "a.yml", "ta.yml", 1⟩ : Entry),
     (⟨"bb", 9001, "a.yml", "tb.yml", 2⟩ : Entry)]
    (⟨"bb", 9001, "a.yml", "tb.yml", 2⟩ : Entry) false false
    (fun _ => false) (fun _ => false) (fun _ => true) (fun p => decide (p = 2))
    (by decide) (by decide)
    (by
      intro x hx
      rcases List.mem_cons.1 hx with h1 | h1
      · right
        rw [h1]
        exact ⟨by decide, by decide, by decide⟩
      · left
        simpa using h1)
    (by decide) (by decide)).1
  rw [h]
  rfl

/-- Counterexample to C7 as stated: in manager.py, killing a pipeline whose
process ignores the graceful signal sends the forced kill but never waits on
the process afterwards — a killed-but-unwaited child remains on this code
path, so the claim that no code path leaves one is false. -/
theorem v1_kill_leaves_unwaited :
    Act.sigKill 7 ∈
      (killV1 [(⟨"aa", 9000, "a.yml", "ta.yml", 7⟩ : Entry)] "aa" false false true).2.2
    ∧ Act.waitFull 7 ∉
      (killV1 [(⟨"aa", 9000, "a.yml", "ta.yml", 7⟩ : Entry)] "aa" false false true).2.2
    ∧ killsWaited
      (killV1 [(⟨"aa", 9000, "a.yml", "ta.yml", 7⟩ : Entry)] "aa" false false true).2.2 =
      false := by
  decide

/-- Claim C7 (amended): in manager_v2.py, terminating a registered pipeline
succeeds and first sends the cooperative signal followed by the bounded
5-second wait when the process is still running; when the grace period
expires it sends the forced kill, and every forced kill in the trace is
immediately followed by an unconditional wait; terminating an
already-exited process sends no signal at all and still succeeds. In
manager.py, the kill_pipeline forced-kill path omits the final wait (see
the counterexample), so the no-unwaited-child guarantee holds only for
manager_v2.py. -/
theorem two_phase_termination_amended (r : Registry) (e : Entry)
    (exited graceOk cfgEx : Bool) (hids : (idsOf r).Nodup) (he : e ∈ r) :
    (killV2 r e.id exited graceOk cfgEx).1 = KillRes.ok
    ∧ (exited = false → (killV2 r e.id exited graceOk cfgEx).2.2.take 2 =
        [Act.sigTerm e.procId, Act.waitGrace e.procId 5])
    ∧ (exited = false → graceOk = false →
        Act.sigKill e.procId ∈ (killV2 r e.id exited graceOk cfgEx).2.2)
    ∧ killsWaited (killV2 r e.id exited graceOk cfgEx).2.2 = true
    ∧ (exited = true → ∀ p,
        Act.sigTerm p ∉ (killV2 r e.id exited graceOk cfgEx).2.2
        ∧ Act.sigKill p ∉ (killV2 r e.id exited graceOk cfgEx).2.2) := by
  have hk : killV2 r e.id exited graceOk cfgEx =
      (KillRes.ok, removeId e.id r,
        termTrace e.procId exited graceOk ++ cleanupTrace e cfgEx ++
          [Act.removeEntry e.id]) := by
    rw [killV2, lookupReg_mem r e hids he]
  rw [hk]
  cases exited <;> cases graceOk <;> cases cfgEx <;>
    simp [termTrace, cleanupTrace, killsWaited]

/-- Witness for the amended C7: a single registered pipeline whose process
survives the grace period; the kill succeeds with the forced kill followed
by the unconditional wait. -/
theorem two_phase_termination_amended_witness :
    ((idsOf [(⟨"aa", 9000, "a.yml", "ta.yml", 7⟩ : Entry)]).Nodup
      ∧ (⟨"aa", 9000, "a.yml", "ta.yml", 7⟩ : Entry) ∈
          [(⟨"aa", 9000, "a.yml", "ta.yml", 7⟩ : Entry)])
    ∧ killsWaited
        (killV2 [(⟨"aa", 9000, "a.yml", "ta.yml", 7⟩ : Entry)] "aa" false false true).2.2 =
      true := by
  refine ⟨⟨by decide, by decide⟩, ?_⟩
  exact (two_phase_termination_amended
    [(⟨"aa", 9000, "a.yml", "ta.yml", 7⟩ : Entry)]
    (⟨"aa", 9000, "a.yml", "ta.yml", 7⟩ : Entry) false false true
    (by decide) (by decide)).2.2.2.1

/-- Counterexample to C8 as stated: a successful spawn opens its log file in
write (truncating) mode — the only open performed uses mode "w", not append
mode, contradicting the claimed append-mode open. -/
theorem log_opened_write_not_append :
    openModes (spawnV2 [] "a.yml" none
        ⟨fun _ => false, fun _ => true, true, true, "ab", 7⟩).2.2 = [FileMode.write]
    ∧ FileMode.write ≠ FileMode.append
    ∧ (spawnV2 [] "a.yml" none
        ⟨fun _ => false, fun _ => true, true, true, "ab", 7⟩).1 =
      SpawnRes.created "ab" 9000 := by
  decide

/-- Claim C8 (amended): on every successful spawn, both standard output and
standard error of the worker are redirected to the single per-pipeline log
file named by the pipeline id under the log directory; that file is opened
with line buffering before the process starts — but in write (truncating)
mode, not append mode: both managers pass mode "w". The preceding actions
are only the health-scan cleanup; the open precedes the launch. -/
theorem log_redirection_amended (r : Registry) (cfg : String) (req : Option Nat)
    (env : SpawnEnv) (hc : cfg ≠ "") (hg : env.genOk = true) (hl : env.launchOk = true)
    (hv : ∀ p, truthyPort req = some p → p ∉ portsOf (scanStep env.dead r)) :
    ∃ p, (spawnV2 r cfg req env).1 = SpawnRes.created env.newId p
      ∧ (spawnV2 r cfg req env).2.2 =
          (scanV2 r env.dead env.cfgEx).2 ++
            [Act.writeFile (pathJoin tempConfigDir (cfgFileName env.newId p)),
             Act.openLog (pathJoin logDir (env.newId ++ ".log")) FileMode.write 1,
             Act.popen binaryPath (pathJoin tempConfigDir (cfgFileName env.newId p))
               (pathJoin logDir (env.newId ++ ".log")) true]
      ∧ ∀ a ∈ (scanV2 r env.dead env.cfgEx).2, isCleanupAct a = true := by
  cases hreq : truthyPort req with
  | none =>
    refine ⟨allocatePort (portsOf (scanStep env.dead r)), ?_, ?_,
      scanActs_cleanup r env.dead env.cfgEx⟩
    · simp [spawnV2, spawnLaunch, hreq, hc, hg, hl]
    · simp [spawnV2, spawnLaunch, hreq, hc, hg, hl]
  | some p =>
    have hp := hv p hreq
    refine ⟨p, ?_, ?_, scanActs_cleanup r env.dead env.cfgEx⟩
    · simp [spawnV2, spawnLaunch, hreq, hc, hg, hl, hp]
    · simp [spawnV2, spawnLaunch, hreq, hc, hg, hl, hp]

/-- Witness for the amended C8: spawning on the empty registry with no
requested port opens ./logs/ab.log in write mode with line buffering and
launches the worker with stdout and stderr merged into it. -/
theorem log_redirection_amended_witness :
    ("a.yml" ≠ "" ∧
      (∀ p, truthyPort none = some p →
        p ∉ portsOf (scanStep (fun _ => false) ([] : Registry))))
    ∧ ∃ p, (spawnV2 [] "a.yml" none
          ⟨fun _ => false, fun _ => true, true, true, "ab", 7⟩).1 =
        SpawnRes.created "ab" p
      ∧ (spawnV2 [] "a.yml" none
          ⟨fun _ => false, fun _ => true, true, true, "ab", 7⟩).2.2 =
          (scanV2 [] (fun _ => false) (fun _ => true)).2 ++
            [Act.writeFile (pathJoin tempConfigDir (cfgFileName "ab" p)),
             Act.openLog (pathJoin logDir ("ab" ++ ".log")) FileMode.write 1,
             Act.popen binaryPath (pathJoin tempConfigDir (cfgFileName "ab" p))
               (pathJoin logDir ("ab" ++ ".log")) true]
      ∧ ∀ a ∈ (scanV2 [] (fun _ => false) (fun _ => true)).2, isCleanupAct a = true := by
  refine ⟨⟨by decide, ?_⟩, ?_⟩
  · intro p h
    simp [truthyPort] at h
  · exact log_redirection_amended [] "a.yml" none
      ⟨fun _ => false, fun _ => true, true, true, "ab", 7⟩
      (by decide) rfl rfl
      (by
        intro p h
        simp [truthyPort] at h)

/-- Claim C9: GET /pipelines in manager_v2.py first runs a health scan that
removes every pipeline whose process has exited; the returned list then has
exactly one row per remaining registered pipeline, carrying id, port, config
path, host process id and liveness (necessarily true after the scan), with
the count equal to the number of rows — a pipeline whose process has exited
never appears in the response. -/
theorem list_freshness (r : Registry) (dead : Nat → Bool) (cEx : String → Bool)
    (hids : (idsOf r).Nodup) :
    (listV2 r dead cEx).1 =
        (scanStep dead r).map
          (fun e => ⟨e.id, e.port, e.baseConfigPath, e.procId, true⟩)
    ∧ (listV2 r dead cEx).2.1 = (listV2 r dead cEx).1.length
    ∧ (listV2 r dead cEx).2.2 = scanStep dead r
    ∧ ∀ e ∈ r, dead e.procId = true →
        ∀ s ∈ (listV2 r dead cEx).1, s.id ≠ e.id := by
  have h1 : (listV2 r dead cEx).1 = summaries dead (scanStep dead r) := rfl
  have h2 : summaries dead (scanStep dead r) =
      (scanStep dead r).map
        (fun e => ⟨e.id, e.port, e.baseConfigPath, e.procId, true⟩) :=
    summaries_scan dead _ (fun e he => scanStep_mem_dead dead r e he)
  refine ⟨h1.trans h2, rfl, rfl, ?_⟩
  intro e he hd s hs hc
  rw [h1.trans h2, List.mem_map] at hs
  obtain ⟨x, hx, hxs⟩ := hs
  have hxid : x.id = e.id := by
    rw [← hxs] at hc
    exact hc
  refine id_not_in_scanStep dead r e hids he hd ?_
  rw [← hxid]
  exact List.mem_map_of_mem Entry.id hx

/-- Witness for C9: a registry with a live pipeline "aa" and an exited
pipeline "bb"; the listing reports only "aa", running, with count 1. -/
theorem list_freshness_witness :
    (idsOf [(⟨"aa", 9000, "a.yml", "ta.yml", 1⟩ : Entry),
            (⟨"bb", 9001, "a.yml", "tb.yml", 2⟩ : Entry)]).Nodup
    ∧ (listV2 [(⟨"aa", 9000, "a.yml", "ta.yml", 1⟩ : Entry),
               (⟨"bb", 9001, "a.yml", "tb.yml", 2⟩ : Entry)]
        (fun p => decide (p = 2)) (fun _ => true)).1 =
      (scanStep (fun p => decide (p = 2))
          [(⟨"aa", 9000, "a.yml", "ta.yml", 1⟩ : Entry),
           (⟨"bb", 9001, "a.yml", "tb.yml", 2⟩ : Entry)]).map
        (fun e => ⟨e.id, e.port, e.baseConfigPath, e.procId, true⟩) := by
  refine ⟨by decide, ?_⟩
  exact (list_freshness
    [(⟨"aa", 9000, "a.yml", "ta.yml", 1⟩ : Entry),
     (⟨"bb", 9001, "a.yml", "tb.yml", 2⟩ : Entry)]
    (fun p => decide (p = 2)) (fun _ => true) (by decide)).1

/-- Claim C10: spawn-failure atomicity. When the requested configuration
passes the port check but config materialization or the process launch
raises, spawn answers 500 and inserts nothing: in manager_v2.py the
resulting registry is exactly the post-scan registry, a subset of the
pre-call registry; in manager.py it is exactly the pre-call registry. -/
theorem spawn_failure_atomic (r : Registry) (cfg : String) (req : Option Nat)
    (env : SpawnEnv) (hc : cfg ≠ "")
    (hfail : env.genOk = false ∨ env.launchOk = false)
    (hv2 : ∀ p, truthyPort req = some p → p ∉ portsOf (scanStep env.dead r))
    (hv1 : ∀ p, truthyPort req = some p → p ∉ portsOf r) :
    (spawnV2 r cfg req env).1 = SpawnRes.serverError
    ∧ (spawnV2 r cfg req env).2.1 = scanStep env.dead r
    ∧ (∀ e ∈ (spawnV2 r cfg req env).2.1, e ∈ r)
    ∧ (spawnV1 r cfg req env).1 = SpawnRes.serverError
    ∧ (spawnV1 r cfg req env).2.1 = r := by
  have hsl : ∀ (r2 : Registry) (p : Nat) (pre : List Act),
      (spawnLaunch r2 cfg p env pre).1 = SpawnRes.serverError
      ∧ (spawnLaunch r2 cfg p env pre).2.1 = r2 := by
    intro r2 p pre
    rcases hfail with h | h
    · constructor <;> simp [spawnLaunch, h]
    · cases hg : env.genOk <;> constructor <;> simp [spawnLaunch, h, hg]
  have hmem : ∀ e ∈ scanStep env.dead r, e ∈ r :=
    fun e he => (scanStep_sublist env.dead r).subset he
  cases hreq : truthyPort req with
  | none =>
    refine ⟨?_, ?_, ?_, ?_, ?_⟩
    · simp only [spawnV2, if_neg hc, hreq]
      exact (hsl _ _ _).1
    · simp only [spawnV2, if_neg hc, hreq]
      exact (hsl _ _ _).2
    · simp only [spawnV2, if_neg hc, hreq]
      rw [(hsl _ _ _).2]
      exact hmem
    · simp only [spawnV1, if_neg hc, hreq]
      exact (hsl _ _ _).1
    · simp only [spawnV1, if_neg hc, hreq]
      exact (hsl _ _ _).2
  | some p =>
    have hp2 := hv2 p hreq
    have hp1 := hv1 p hreq
    refine ⟨?_, ?_, ?_, ?_, ?_⟩
    · simp only [spawnV2, if_neg hc, hreq, if_neg hp2]
      exact (hsl _ _ _).1
    · simp only [spawnV2, if_neg hc, hreq, if_neg hp2]
      exact (hsl _ _ _).2
    · simp only [spawnV2, if_neg hc, hreq, if_neg hp2]
      rw [(hsl _ _ _).2]
      exact hmem
    · simp only [spawnV1, if_neg hc, hreq, if_neg hp1]
      exact (hsl _ _ _).1
    · simp only [spawnV1, if_neg hc, hreq, if_neg hp1]
      exact (hsl _ _ _).2

/-- Witness for C10: a spawn whose config materialization fails on a
one-pipeline registry answers 500 and leaves the registry unchanged. -/
theorem spawn_failure_atomic_witness :
    ("missing.yml" ≠ "" ∧
      ((⟨fun _ => false, fun _ => true, false, true, "cc", 3⟩ : SpawnEnv).genOk = false ∨
        (⟨fun _ => false, fun _ => true, false, true, "cc", 3⟩ : SpawnEnv).launchOk = false))
    ∧ (spawnV2 [(⟨"aa", 9000, "a.yml", "ta.yml", 1⟩ : Entry)] "missing.yml" none
        ⟨fun _ => false, fun _ => true, false, true, "cc", 3⟩).1 = SpawnRes.serverError := by
  refine ⟨⟨by decide, Or.inl rfl⟩, ?_⟩
  exact (spawn_failure_atomic [(⟨"aa", 9000, "a.yml", "ta.yml", 1⟩ : Entry)]
    "missing.yml" none ⟨fun _ => false, fun _ => true, false, true, "cc", 3⟩
    (by decide) (Or.inl rfl)
    (by
      intro p h
      simp [truthyPort] at h)
    (by
      intro p h
      simp [truthyPort] at h)).1

end Orch
